import Mathlib

/-!
Shallow embedding of the Bengali appointment agent (FastAPI + pipecat glue
code) for checking its natural-language specification.

Embedded modules:
  - services/n8n_service.py : N8nIntegrationService.send_to_n8n, _is_bengali,
    _detect_intent
  - main.py : N8nIntegrationProcessor.process_frame, websocket_endpoint
    session creation, run_bengali_appointment_agent status updates,
    cleanup_inactive_sessions
  - services/twilio_service.py : TwilioService.handle_incoming_call,
    extract_call_info; main.py handle_twilio_call
-/

/-! ### n8n forwarding service (services/n8n_service.py) -/

/-- Result of parsing the JSON body of the webhook answer: either a JSON
object whose fields we model as string-to-string pairs, or anything that
makes response.json() or .get raise (invalid JSON, non-object). -/
inductive JsonBody
  | parsed (fields : List (String × String))
  | invalid
deriving DecidableEq, Repr

/-- Outcome of the HTTP POST inside send_to_n8n: a reply with a status code
and a body, a timeout (asyncio.TimeoutError), or any other transport
exception raised by the client. -/
inductive HttpOutcome
  | ok (status : Nat) (body : JsonBody)
  | timeout
  | transportError
deriving DecidableEq, Repr

/-- Executable substring test on character lists: does w occur as a
contiguous run inside l.  Mirrors the Python operator in as used on
strings by _detect_intent. -/
def infixCheck (w : List Char) : List Char → Bool
  | [] => w.isEmpty
  | c :: rest => w.isPrefixOf (c :: rest) || infixCheck w rest

/-- Python substring test w in t for strings. -/
def strContains (t w : String) : Bool :=
  infixCheck w.data t.data

/-- Python str.lower, modelled characterwise on the char list of the
string. -/
def py_lower (s : String) : String :=
  String.mk (s.data.map Char.toLower)

/-- Python str.strip with no argument: removes leading and trailing
whitespace. -/
def py_strip (s : String) : String :=
  String.mk (((s.data.dropWhile Char.isWhitespace).reverse.dropWhile
    Char.isWhitespace).reverse)

/-- N8nIntegrationService._is_bengali: any(ord(char) in range(0x0980, 0x09FF)
for char in text).  Note the Python range is half open: the upper bound
0x09FF itself is excluded. -/
def is_bengali (s : String) : Bool :=
  s.data.any (fun c => decide (0x0980 ≤ c.toNat) && decide (c.toNat < 0x09FF))

/-- The language tag put into the forwarded payload:
"bengali" if self._is_bengali(user_message) else "english". -/
def detected_language (s : String) : String :=
  if is_bengali s then "bengali" else "english"

/-- Keyword list of the first branch of _detect_intent. -/
def book_keywords : List String :=
  ["appointment", "book", "schedule", "time", "date"]

/-- Keyword list of the second branch of _detect_intent. -/
def modify_keywords : List String :=
  ["cancel", "reschedule", "change"]

/-- Keyword list of the third branch of _detect_intent. -/
def check_keywords : List String :=
  ["confirm", "check", "status"]

/-- N8nIntegrationService._detect_intent: lowercases the text, then an
if/elif chain of any(word in text_lower for word in ...) over the three
keyword lists, defaulting to general_inquiry. -/
def detect_intent (text : String) : String :=
  let t := py_lower text
  if book_keywords.any (fun w => strContains t w) then "book_appointment"
  else if modify_keywords.any (fun w => strContains t w) then "modify_appointment"
  else if check_keywords.any (fun w => strContains t w) then "check_appointment"
  else "general_inquiry"

/-- N8nIntegrationService.send_to_n8n, abstracted over the HTTP outcome.
On status 200 it parses the JSON body and returns the response field with
default empty string; on any other status it returns None; a timeout or
any other exception (including a JSON parsing failure) is caught and also
yields None. -/
def send_to_n8n : HttpOutcome → Option String
  | HttpOutcome.ok status body =>
      if status = 200 then
        match body with
        | JsonBody.parsed fields => some ((fields.lookup "response").getD "")
        | JsonBody.invalid => none
      else none
  | HttpOutcome.timeout => none
  | HttpOutcome.transportError => none

/-- The outcomes the spec calls forwarding failures: non-200 status,
timeout, transport error, or an unparseable 200 body. -/
def isForwardingFailure : HttpOutcome → Bool
  | HttpOutcome.ok status JsonBody.invalid => true && decide (status = status)
  | HttpOutcome.ok status (JsonBody.parsed _) => decide (status ≠ 200)
  | HttpOutcome.timeout => true
  | HttpOutcome.transportError => true

/-- N8nIntegrationProcessor.process_frame on a user TranscriptionFrame going
upstream: strips the text, skips empty text, forwards, and only when the
reply is truthy (not None and not the empty string) rewrites frame.text to
the stripped text plus the bracketed appointment response.  Returns the
text the downstream steps consume. -/
def process_frame (text : String) (o : HttpOutcome) : String :=
  let user_text := py_strip text
  if user_text = "" then text
  else
    match send_to_n8n o with
    | some r =>
        if r = "" then text
        else user_text ++ "\n\n[Appointment system response: " ++ r ++ "]"
    | none => text

/-- The concrete outcome of claim C2: HTTP 200 with body response OK. -/
def okResponseOutcome : HttpOutcome :=
  HttpOutcome.ok 200 (JsonBody.parsed [("response", "OK")])

/-- A one-character text holding the top codepoint U+09FF of the Bengali
Unicode block. -/
def bengaliBlockEdge : String :=
  String.mk [Char.ofNat 0x09FF]

/-- Spec-level matching predicate: some keyword of the list occurs as a
substring of the lowercased text.  This is the case-insensitive substring
match the spec describes. -/
def matchedBy (text : String) (ws : List String) : Prop :=
  ∃ w ∈ ws, w.data <:+: (py_lower text).data

/-! ### Session registry (main.py active_sessions) -/

/-- The status field of a session record. -/
inductive SessionStatus
  | active
  | running
  | error
  | ended
deriving DecidableEq, Repr

/-- One record of the active_sessions dict: generated session id, stream
identifier, caller id, the socket handle (an opaque reference), and the
status. -/
structure Session where
  session_id : String
  stream_sid : String
  caller_id : String
  websocket_ref : Nat
  status : SessionStatus
deriving DecidableEq, Repr

/-- The process-wide active_sessions dict, modelled as an insertion-ordered
association list keyed by the call identifier. -/
abbrev Registry := List (String × Session)

/-- Python dict assignment d[k] = v: replaces the value in place when the
key is present, otherwise appends a new entry at the end. -/
def dictSet : Registry → String → Session → Registry
  | [], k, v => [(k, v)]
  | p :: rest, k, v => if p.1 = k then (k, v) :: rest else p :: dictSet rest k v

/-- Python del d[k] as the program always uses it, behind an
if k in d guard: removes the entry with that key, a no-op when the key is
absent. -/
def dictDel (reg : Registry) (k : String) : Registry :=
  reg.filter (fun p => decide (p.1 ≠ k))

/-- The dict invariant: no two entries share a call identifier. -/
abbrev keysNodup (reg : Registry) : Prop :=
  (reg.map Prod.fst).Nodup

/-- The fresh record websocket_endpoint creates on a start event: new
session id, stream id, caller id, the socket, status active. -/
def make_start_session (session_id stream_sid caller_id : String) (ws : Nat) : Session :=
  { session_id := session_id, stream_sid := stream_sid, caller_id := caller_id,
    websocket_ref := ws, status := SessionStatus.active }

/-- The registry write of websocket_endpoint on a start event:
active_sessions[call_sid] = fresh record. -/
def handle_start_event (reg : Registry) (call_sid session_id stream_sid caller_id : String)
    (ws : Nat) : Registry :=
  dictSet reg call_sid (make_start_session session_id stream_sid caller_id ws)

/-- First phase of one cycle of cleanup_inactive_sessions: collect the
call identifiers whose record has status ended. -/
def collectEnded (reg : Registry) : List String :=
  (reg.filter (fun p => decide (p.2.status = SessionStatus.ended))).map Prod.fst

/-- One cycle of cleanup_inactive_sessions: collect the ended call
identifiers, then delete each of them, every deletion guarded by
if call_sid in active_sessions. -/
def cleanup_cycle (reg : Registry) : Registry :=
  (collectEnded reg).foldl (fun r k => dictDel r k) reg

/-- Result of one unguarded Python dict subscript write
d[k][field] = v: a KeyError escapes when k is absent. -/
inductive DictWriteResult
  | ok (reg : Registry)
  | keyError (k : String)
deriving DecidableEq, Repr

/-- A status update of run_bengali_appointment_agent, which subscripts
active_sessions[call_sid] without a guard: it raises KeyError when the
record is gone. -/
def set_session_status (reg : Registry) (call_sid : String) (st : SessionStatus) :
    DictWriteResult :=
  match reg.lookup call_sid with
  | some s => DictWriteResult.ok (dictSet reg call_sid { s with status := st })
  | none => DictWriteResult.keyError call_sid

/-- Where, if anywhere, the body of run_bengali_appointment_agent raises:
nowhere, before the running update, or after it while the pipeline runs. -/
inductive DriverRun
  | success
  | failBeforeRunning
  | failAfterRunning
deriving DecidableEq, Repr

/-- The sequence of status values run_bengali_appointment_agent writes into
the session record: running inside the try body, error in the except
handler, and unconditionally ended in the finally block. -/
def driver_status_writes : DriverRun → List SessionStatus
  | DriverRun.success => [SessionStatus.running, SessionStatus.ended]
  | DriverRun.failBeforeRunning => [SessionStatus.error, SessionStatus.ended]
  | DriverRun.failAfterRunning =>
      [SessionStatus.running, SessionStatus.error, SessionStatus.ended]

/-- The whole status history of a call record: active at creation in
websocket_endpoint, then the writes of the driver. -/
def call_status_trace (r : DriverRun) : List SessionStatus :=
  SessionStatus.active :: driver_status_writes r

/-- Position of a status in the forward order. -/
def statusRank : SessionStatus → Nat
  | SessionStatus.active => 0
  | SessionStatus.running => 1
  | SessionStatus.error => 2
  | SessionStatus.ended => 3

/-- The letter of claim C3 on a status history: no write at all follows a
write of ended or of error. -/
def terminalNoRewrite : List SessionStatus → Bool
  | [] => true
  | [_] => true
  | a :: b :: rest =>
      (decide (a ≠ SessionStatus.ended) && decide (a ≠ SessionStatus.error)) &&
        terminalNoRewrite (b :: rest)

/-- Statuses strictly increase in rank along the history. -/
def forwardOnly (l : List SessionStatus) : Prop :=
  l.Chain' (fun a b => statusRank a < statusRank b)

/-- Demo record with status ended, for concrete witnesses. -/
def sessionEnded : Session :=
  { session_id := "s1", stream_sid := "m1", caller_id := "+15550001111",
    websocket_ref := 1, status := SessionStatus.ended }

/-- Demo record with status running, for concrete witnesses. -/
def sessionRunning : Session :=
  { session_id := "s2", stream_sid := "m2", caller_id := "+15550002222",
    websocket_ref := 2, status := SessionStatus.running }

/-- Demo registry holding one ended and one running record. -/
def demoRegistry : Registry :=
  [("CA1", sessionEnded), ("CA2", sessionRunning)]

/-! ### Inbound webhook (main.py handle_twilio_call and
services/twilio_service.py TwilioService) -/

/-- The call information extracted from the webhook form. -/
structure CallInfo where
  caller_id : String
  call_sid : String
  to_number : String
  call_status : String
  direction : String
  account_sid : String
deriving DecidableEq, Repr

/-- TwilioService.extract_call_info: form_data.get of each field with the
default unknown. -/
def extract_call_info (form : List (String × String)) : CallInfo :=
  { caller_id := (form.lookup "From").getD "unknown",
    call_sid := (form.lookup "CallSid").getD "unknown",
    to_number := (form.lookup "To").getD "unknown",
    call_status := (form.lookup "CallStatus").getD "unknown",
    direction := (form.lookup "Direction").getD "unknown",
    account_sid := (form.lookup "AccountSid").getD "unknown" }

/-- The socket URL of TwilioService.handle_incoming_call, built from the
RAILWAY_PUBLIC_DOMAIN environment variable with its default. -/
def websocket_url (railwayDomain : Option String) (call_sid : String) : String :=
  "wss://" ++ railwayDomain.getD "your-app.railway.app" ++ "/ws/" ++ call_sid

/-- The XML declaration both documents open with. -/
def xml_decl : String :=
  "<?xml version=\"1.0\" encoding=\"UTF-8\"?>"

/-- Literal part of the success TwiML before the stream URL, with the
indentation of the Python triple-quoted f-string. -/
def stream_twiml_head : String :=
  "<?xml version=\"1.0\" encoding=\"UTF-8\"?>\n        <Response>\n            <Connect>\n                <Stream url=\""

/-- Literal part of the success TwiML between the stream URL and the
caller id parameter value. -/
def stream_twiml_mid1 : String :=
  "\">\n                    <Parameter name=\"caller_id\" value=\""

/-- Literal part of the success TwiML between the caller id and the call
id parameter values. -/
def stream_twiml_mid2 : String :=
  "\" />\n                    <Parameter name=\"call_sid\" value=\""

/-- Literal tail of the success TwiML after the call id parameter value. -/
def stream_twiml_tail : String :=
  "\" />\n                    <Parameter name=\"purpose\" value=\"appointment_booking\" />\n                </Stream>\n            </Connect>\n        </Response>"

/-- The success TwiML document of TwilioService.handle_incoming_call. -/
def stream_twiml (wsUrl caller_id call_sid : String) : String :=
  stream_twiml_head ++ wsUrl ++ stream_twiml_mid1 ++ caller_id ++
    stream_twiml_mid2 ++ call_sid ++ stream_twiml_tail

/-- The degraded apology document of the except branch of
handle_twilio_call. -/
def apology_twiml : String :=
  "<?xml version=\"1.0\" encoding=\"UTF-8\"?><Response><Say>Sorry, system temporarily unavailable.</Say></Response>"

/-- Shallow well-formedness of the returned markup: a nonempty document
opening with the XML declaration and closing the Response element. -/
def wellFormedXmlDoc (s : String) : Prop :=
  s ≠ "" ∧ xml_decl.data <+: s.data ∧ "</Response>".data <:+ s.data

/-- Whether some step inside the try block of handle_twilio_call raised. -/
inductive WebhookInternal
  | ok
  | raised
deriving DecidableEq, Repr

/-- main.py handle_twilio_call: the try block extracts the call info and
builds the success TwiML; any exception is caught and answered with the
apology document. -/
def handle_twilio_call (form : List (String × String)) (railwayDomain : Option String) :
    WebhookInternal → String
  | WebhookInternal.ok =>
      stream_twiml (websocket_url railwayDomain (extract_call_info form).call_sid)
        (extract_call_info form).caller_id (extract_call_info form).call_sid
  | WebhookInternal.raised => apology_twiml

/-! ### Theorems -/

/-- Helper: infixCheck decides the Mathlib infix relation. -/
theorem infixCheck_iff (w l : List Char) : infixCheck w l = true ↔ w <:+: l := by
  induction l with
  | nil =>
      simp [infixCheck, List.isEmpty_iff]
  | cons c rest ih =>
      simp [infixCheck, List.infix_cons_iff, ih, List.isPrefixOf_iff_prefix]

/-- Helper: the any-over-keywords test of detect_intent decides the
spec-level matching predicate. -/
theorem matchedBy_iff (text : String) (ws : List String) :
    (ws.any fun w => strContains (py_lower text) w) = true ↔ matchedBy text ws := by
  simp [matchedBy, List.any_eq_true, strContains, infixCheck_iff]

/-- Helper: a matched book keyword forces the first branch. -/
theorem detect_intent_book (text : String) (h : matchedBy text book_keywords) :
    detect_intent text = "book_appointment" := by
  have hb := (matchedBy_iff text book_keywords).mpr h
  simp [detect_intent, hb]

/-- Helper: with no book keyword, a modify keyword forces the second
branch. -/
theorem detect_intent_modify (text : String) (h1 : ¬ matchedBy text book_keywords)
    (h2 : matchedBy text modify_keywords) :
    detect_intent text = "modify_appointment" := by
  have hb : (book_keywords.any fun w => strContains (py_lower text) w) = false :=
    Bool.eq_false_iff.mpr (fun hc => h1 ((matchedBy_iff text book_keywords).mp hc))
  have hm := (matchedBy_iff text modify_keywords).mpr h2
  simp [detect_intent, hb, hm]

/-- Helper: with no book or modify keyword, a check keyword forces the
third branch. -/
theorem detect_intent_check (text : String) (h1 : ¬ matchedBy text book_keywords)
    (h2 : ¬ matchedBy text modify_keywords) (h3 : matchedBy text check_keywords) :
    detect_intent text = "check_appointment" := by
  have hb : (book_keywords.any fun w => strContains (py_lower text) w) = false :=
    Bool.eq_false_iff.mpr (fun hc => h1 ((matchedBy_iff text book_keywords).mp hc))
  have hm : (modify_keywords.any fun w => strContains (py_lower text) w) = false :=
    Bool.eq_false_iff.mpr (fun hc => h2 ((matchedBy_iff text modify_keywords).mp hc))
  have hc := (matchedBy_iff text check_keywords).mpr h3
  simp [detect_intent, hb, hm, hc]

/-- Helper: with no keyword at all, the default branch answers. -/
theorem detect_intent_general (text : String) (h1 : ¬ matchedBy text book_keywords)
    (h2 : ¬ matchedBy text modify_keywords) (h3 : ¬ matchedBy text check_keywords) :
    detect_intent text = "general_inquiry" := by
  have hb : (book_keywords.any fun w => strContains (py_lower text) w) = false :=
    Bool.eq_false_iff.mpr (fun hc => h1 ((matchedBy_iff text book_keywords).mp hc))
  have hm : (modify_keywords.any fun w => strContains (py_lower text) w) = false :=
    Bool.eq_false_iff.mpr (fun hc => h2 ((matchedBy_iff text modify_keywords).mp hc))
  have hk : (check_keywords.any fun w => strContains (py_lower text) w) = false :=
    Bool.eq_false_iff.mpr (fun hc => h3 ((matchedBy_iff text check_keywords).mp hc))
  simp [detect_intent, hb, hm, hk]

/-- Claim C1: every forwarding failure (non-200 status, timeout, transport
or parsing failure) makes send_to_n8n return none rather than raise, and
process_frame leaves the downstream utterance text exactly as it was. -/
theorem forwarding_failure_silent (text : String) (o : HttpOutcome)
    (h : isForwardingFailure o = true) :
    send_to_n8n o = none ∧ process_frame text o = text := by
  have hs : send_to_n8n o = none := by
    cases o with
    | ok status body =>
        cases body with
        | parsed fields =>
            have hne : status ≠ 200 := by simpa [isForwardingFailure] using h
            simp [send_to_n8n, hne]
        | invalid => simp [send_to_n8n]
    | timeout => rfl
    | transportError => rfl
  refine ⟨hs, ?_⟩
  simp [process_frame, hs]

/-- Witness for C1 at the concrete timeout outcome and the text hello. -/
theorem forwarding_failure_silent_witness :
    isForwardingFailure HttpOutcome.timeout = true ∧
    (send_to_n8n HttpOutcome.timeout = none ∧
      process_frame "hello" HttpOutcome.timeout = "hello") :=
  ⟨rfl, forwarding_failure_silent "hello" HttpOutcome.timeout rfl⟩

/-- Claim C2: on HTTP 200 with JSON body response OK, forwarding hello
returns OK, and process_frame rewrites the downstream text to hello plus
the bracketed appointment response. -/
theorem http200_enhances_utterance :
    send_to_n8n okResponseOutcome = some "OK" ∧
    process_frame "hello" okResponseOutcome =
      "hello\n\n[Appointment system response: OK]" := by
  exact ⟨by decide, by decide⟩

/-- Counterexample for claim C4: the codepoint U+09FF lies in the Bengali
Unicode block U+0980 through U+09FF, yet the classifier answers english on
a text consisting of exactly that character, because the Python range
excludes its upper bound. -/
theorem bengali_edge_counterexample :
    (Char.ofNat 0x09FF).toNat = 0x09FF ∧
    bengaliBlockEdge.data = [Char.ofNat 0x09FF] ∧
    detected_language bengaliBlockEdge = "english" := by
  exact ⟨by decide, rfl, by decide⟩

/-- Claim C4 amended: classification returns bengali exactly when the text
has a codepoint c with 0x0980 less-or-equal c and c strictly below 0x09FF,
that is in U+0980 through U+09FE, and english otherwise. -/
theorem detected_language_characterization (s : String) :
    (detected_language s = "bengali" ↔
      ∃ c ∈ s.data, 0x0980 ≤ c.toNat ∧ c.toNat < 0x09FF) ∧
    (detected_language s = "english" ↔
      ¬ ∃ c ∈ s.data, 0x0980 ≤ c.toNat ∧ c.toNat < 0x09FF) := by
  have key : is_bengali s = true ↔
      ∃ c ∈ s.data, 0x0980 ≤ c.toNat ∧ c.toNat < 0x09FF := by
    simp [is_bengali, List.any_eq_true]
  have hne : ("bengali" : String) ≠ "english" := by decide
  have hne2 : ("english" : String) ≠ "bengali" := by decide
  by_cases hb : is_bengali s = true
  · rw [detected_language, if_pos hb]
    exact ⟨iff_of_true rfl (key.mp hb),
      iff_of_false hne (not_not_intro (key.mp hb))⟩
  · rw [detected_language, if_neg hb]
    have hnotex : ¬ ∃ c ∈ s.data, 0x0980 ≤ c.toNat ∧ c.toNat < 0x09FF :=
      fun hc => hb (key.mpr hc)
    exact ⟨iff_of_false hne2 hnotex, iff_of_true rfl hnotex⟩

/-- Counterexample for claim C5: reschedule is a cancel-change keyword, yet
intent classification on the text reschedule answers book_appointment, not
modify_appointment, because the book keyword schedule is found first. -/
theorem detect_intent_reschedule_counterexample :
    "reschedule" ∈ modify_keywords ∧
    detect_intent "reschedule" = "book_appointment" ∧
    ("book_appointment" : String) ≠ "modify_appointment" := by
  exact ⟨by decide, by decide, by decide⟩

/-- Claim C5 amended: intent classification is case-insensitive substring
match over the fixed keyword lists checked in priority order: any book
keyword yields book_appointment; a cancel-change keyword yields
modify_appointment only when no book keyword matched; a confirm-check
keyword yields check_appointment only when no earlier list matched; text
matching none of the lists yields general_inquiry. -/
theorem detect_intent_keyword_chain (text : String) :
    (matchedBy text book_keywords → detect_intent text = "book_appointment") ∧
    (¬ matchedBy text book_keywords → matchedBy text modify_keywords →
      detect_intent text = "modify_appointment") ∧
    (¬ matchedBy text book_keywords → ¬ matchedBy text modify_keywords →
      matchedBy text check_keywords → detect_intent text = "check_appointment") ∧
    (¬ matchedBy text book_keywords → ¬ matchedBy text modify_keywords →
      ¬ matchedBy text check_keywords → detect_intent text = "general_inquiry") :=
  ⟨detect_intent_book text, detect_intent_modify text,
    detect_intent_check text, detect_intent_general text⟩

/-- Witness for C5 at the concrete text cancel, which matches no book
keyword and the modify keyword cancel. -/
theorem detect_intent_keyword_chain_witness :
    detect_intent "cancel" = "modify_appointment" := by
  have hb : ¬ matchedBy "cancel" book_keywords := by
    rw [← matchedBy_iff]
    decide
  have hm : matchedBy "cancel" modify_keywords := by
    rw [← matchedBy_iff]
    decide
  exact (detect_intent_keyword_chain "cancel").2.1 hb hm

/-- Claim C10: any text containing the word reschedule in any letter case
is classified book_appointment and never modify_appointment, because the
book keyword schedule is a substring of reschedule and the book list is
checked first. -/
theorem reschedule_always_book (text : String)
    (h : "reschedule".data <:+: (py_lower text).data) :
    detect_intent text = "book_appointment" ∧
    detect_intent text ≠ "modify_appointment" := by
  have hsub : "schedule".data <:+: "reschedule".data := (infixCheck_iff _ _).mp (by decide)
  have hmem : ("schedule" : String) ∈ book_keywords := by decide
  have hbook : matchedBy text book_keywords := ⟨"schedule", hmem, hsub.trans h⟩
  have heq := detect_intent_book text hbook
  exact ⟨heq, by rw [heq]; decide⟩

/-- Witness for C10 at a concrete upper-case text. -/
theorem reschedule_always_book_witness :
    detect_intent "Please RESCHEDULE my visit" = "book_appointment" ∧
    detect_intent "Please RESCHEDULE my visit" ≠ "modify_appointment" :=
  reschedule_always_book "Please RESCHEDULE my visit" ((infixCheck_iff _ _).mp (by decide))

/-- Helper: membership in a guarded deletion. -/
theorem mem_dictDel (reg : Registry) (a k : String) (s : Session) :
    (k, s) ∈ dictDel reg a ↔ (k, s) ∈ reg ∧ k ≠ a := by
  simp [dictDel, List.mem_filter]

/-- Helper: membership after deleting every key of a list in turn. -/
theorem mem_foldl_dictDel (ks : List String) (reg : Registry) (k : String) (s : Session) :
    (k, s) ∈ ks.foldl (fun r k2 => dictDel r k2) reg ↔ (k, s) ∈ reg ∧ k ∉ ks := by
  induction ks generalizing reg with
  | nil => simp
  | cons a ks ih =>
      simp only [List.foldl_cons, ih, mem_dictDel, List.mem_cons]
      tauto

/-- Helper: a key is collected by the sweep exactly when some record of the
registry under it has status ended. -/
theorem mem_collectEnded (reg : Registry) (k : String) :
    k ∈ collectEnded reg ↔ ∃ s, (k, s) ∈ reg ∧ s.status = SessionStatus.ended := by
  simp only [collectEnded, List.mem_map, List.mem_filter, decide_eq_true_eq]
  constructor
  · rintro ⟨⟨k1, s⟩, ⟨hmem, hend⟩, hfst⟩
    exact ⟨s, hfst ▸ hmem, hend⟩
  · rintro ⟨s, hmem, hend⟩
    exact ⟨(k, s), ⟨hmem, hend⟩, rfl⟩

/-- Helper: in a registry without duplicate keys, the record under a key is
unique. -/
theorem value_unique (reg : Registry) (h : keysNodup reg) (k : String) (s s2 : Session)
    (h1 : (k, s) ∈ reg) (h2 : (k, s2) ∈ reg) : s = s2 := by
  induction reg with
  | nil => cases h1
  | cons p rest ih =>
      have hn : p.1 ∉ rest.map Prod.fst ∧ keysNodup rest := by
        simpa [keysNodup, List.nodup_cons] using h
      rcases List.mem_cons.mp h1 with h1 | h1
      · rcases List.mem_cons.mp h2 with h2 | h2
        · have heq : (k, s) = (k, s2) := h1.trans h2.symm
          exact ((Prod.mk.injEq k s k s2).mp heq).2
        · exfalso
          apply hn.1
          have hk : k ∈ rest.map Prod.fst := List.mem_map_of_mem Prod.fst h2
          rw [← h1]
          exact hk
      · rcases List.mem_cons.mp h2 with h2 | h2
        · exfalso
          apply hn.1
          have hk : k ∈ rest.map Prod.fst := List.mem_map_of_mem Prod.fst h1
          rw [← h2]
          exact hk
        · exact ih hn.2 h1 h2

/-- Claim C6: one sweep cycle removes exactly the records with status
ended; every other record is still present, completely unchanged. -/
theorem cleanup_cycle_spec (reg : Registry) (k : String) (s : Session)
    (h : keysNodup reg) :
    (k, s) ∈ cleanup_cycle reg ↔ (k, s) ∈ reg ∧ s.status ≠ SessionStatus.ended := by
  rw [cleanup_cycle, mem_foldl_dictDel]
  constructor
  · rintro ⟨hmem, hnot⟩
    exact ⟨hmem, fun hend => hnot ((mem_collectEnded reg k).mpr ⟨s, hmem, hend⟩)⟩
  · rintro ⟨hmem, hne⟩
    refine ⟨hmem, fun hin => ?_⟩
    rcases (mem_collectEnded reg k).mp hin with ⟨s2, hmem2, hend2⟩
    exact hne (by rw [value_unique reg h k s s2 hmem hmem2]; exact hend2)

/-- Witness for C6 on the demo registry: the running record survives the
sweep unchanged. -/
theorem cleanup_cycle_spec_witness :
    ("CA2", sessionRunning) ∈ cleanup_cycle demoRegistry ↔
      ("CA2", sessionRunning) ∈ demoRegistry ∧
        sessionRunning.status ≠ SessionStatus.ended :=
  cleanup_cycle_spec demoRegistry "CA2" sessionRunning (by decide)

/-- Helper: a dict assignment is found again by a lookup of its key. -/
theorem lookup_dictSet_self (reg : Registry) (k : String) (v : Session) :
    (dictSet reg k v).lookup k = some v := by
  induction reg with
  | nil => simp [dictSet, List.lookup]
  | cons p rest ih =>
      obtain ⟨pk, pv⟩ := p
      by_cases hp : pk = k
      · simp [dictSet, hp, List.lookup]
      · have hne : (k == pk) = false := beq_eq_false_iff_ne.mpr (fun he => hp he.symm)
        simp [dictSet, hp, List.lookup, hne, ih]

/-- Helper: the keys after a dict assignment are the old keys plus the
assigned key. -/
theorem mem_keys_dictSet (reg : Registry) (k x : String) (s : Session) :
    x ∈ (dictSet reg k s).map Prod.fst ↔ x ∈ reg.map Prod.fst ∨ x = k := by
  induction reg with
  | nil => simp [dictSet]
  | cons p rest ih =>
      obtain ⟨pk, pv⟩ := p
      by_cases hp : pk = k
      · subst hp
        simp [dictSet]
        tauto
      · simp [dictSet, hp, ih]
        tauto

/-- Helper: a dict assignment preserves the no-duplicate-keys invariant. -/
theorem nodup_dictSet (reg : Registry) (k : String) (v : Session)
    (h : keysNodup reg) : keysNodup (dictSet reg k v) := by
  induction reg with
  | nil => simp [dictSet, keysNodup]
  | cons p rest ih =>
      obtain ⟨pk, pv⟩ := p
      have hn : pk ∉ rest.map Prod.fst ∧ keysNodup rest := by
        simpa [keysNodup, List.nodup_cons] using h
      by_cases hp : pk = k
      · subst hp
        have hred : dictSet ((pk, pv) :: rest) pk v = (pk, v) :: rest := by
          simp [dictSet]
        rw [hred]
        simpa [keysNodup, List.nodup_cons] using hn
      · have hrest := ih hn.2
        simp only [dictSet, if_neg hp, keysNodup, List.map_cons, List.nodup_cons]
        refine ⟨fun hmem => ?_, hrest⟩
        rcases (mem_keys_dictSet rest k pk v).mp hmem with hmem | hmem
        · exact hn.1 hmem
        · exact hp hmem

/-- Helper: a guarded deletion preserves the no-duplicate-keys invariant. -/
theorem nodup_dictDel (reg : Registry) (k : String) (h : keysNodup reg) :
    keysNodup (dictDel reg k) := by
  have hsub : List.Sublist ((dictDel reg k).map Prod.fst) (reg.map Prod.fst) :=
    (List.filter_sublist reg).map Prod.fst
  exact List.Nodup.sublist hsub h

/-- Claim C9: a start event for a call identifier that already has a
record silently overwrites it with a fresh record of status active, and
the registry afterwards holds exactly one record for that identifier. -/
theorem start_event_overwrites (reg : Registry)
    (call_sid session_id stream_sid caller_id : String) (ws : Nat) (old : Session)
    (hnd : keysNodup reg) (hold : reg.lookup call_sid = some old) :
    (handle_start_event reg call_sid session_id stream_sid caller_id ws).lookup call_sid =
      some (make_start_session session_id stream_sid caller_id ws) ∧
    (make_start_session session_id stream_sid caller_id ws).status = SessionStatus.active ∧
    keysNodup (handle_start_event reg call_sid session_id stream_sid caller_id ws) ∧
    ((handle_start_event reg call_sid session_id stream_sid caller_id ws).map
      Prod.fst).count call_sid = 1 := by
  have hnd2 : keysNodup (handle_start_event reg call_sid session_id stream_sid caller_id ws) :=
    nodup_dictSet reg call_sid (make_start_session session_id stream_sid caller_id ws) hnd
  have hmem : call_sid ∈ (handle_start_event reg call_sid session_id stream_sid
      caller_id ws).map Prod.fst :=
    (mem_keys_dictSet reg call_sid call_sid
      (make_start_session session_id stream_sid caller_id ws)).mpr (Or.inr rfl)
  exact ⟨lookup_dictSet_self reg call_sid _, rfl, hnd2,
    List.count_eq_one_of_mem hnd2 hmem⟩

/-- Witness for C9: overwriting the ended record of the demo registry. -/
theorem start_event_overwrites_witness :
    (handle_start_event demoRegistry "CA1" "s9" "m9" "+15550009999" 9).lookup "CA1" =
      some (make_start_session "s9" "m9" "+15550009999" 9) ∧
    (make_start_session "s9" "m9" "+15550009999" 9).status = SessionStatus.active ∧
    keysNodup (handle_start_event demoRegistry "CA1" "s9" "m9" "+15550009999" 9) ∧
    ((handle_start_event demoRegistry "CA1" "s9" "m9" "+15550009999" 9).map
      Prod.fst).count "CA1" = 1 :=
  start_event_overwrites demoRegistry "CA1" "s9" "m9" "+15550009999" 9 sessionEnded
    (by decide) (by decide)

/-- Counterexample for claim C3: when the pipeline fails after the running
update, the driver writes error in its except handler and then ended in
its finally block, so a status write does follow an error status, against
the claim that ended and error are both terminal. -/
theorem error_status_rewritten_counterexample :
    call_status_trace DriverRun.failAfterRunning =
      [SessionStatus.active, SessionStatus.running, SessionStatus.error,
        SessionStatus.ended] ∧
    terminalNoRewrite (call_status_trace DriverRun.failAfterRunning) = false := by
  exact ⟨rfl, rfl⟩

/-- Claim C3 amended: the status of a session record only moves forward
along active, running, error, ended, never backward (an error status is
always followed by the terminal ended write of the finally block), and the
registry operations keep at most one record per call identifier. -/
theorem status_forward_monotone :
    (∀ r : DriverRun, forwardOnly (call_status_trace r)) ∧
    (∀ (reg : Registry) (k : String) (v : Session), keysNodup reg →
      keysNodup (dictSet reg k v) ∧ keysNodup (dictDel reg k)) := by
  constructor
  · intro r
    cases r <;>
      simp [forwardOnly, call_status_trace, driver_status_writes, List.chain'_cons,
        statusRank]
  · intro reg k v h
    exact ⟨nodup_dictSet reg k v h, nodup_dictDel reg k h⟩

/-- Witness for C3 amended on the demo registry. -/
theorem status_forward_monotone_witness :
    keysNodup (dictSet demoRegistry "CA3" sessionRunning) ∧
    keysNodup (dictDel demoRegistry "CA3") :=
  status_forward_monotone.2 demoRegistry "CA3" sessionRunning (by decide)

/-- Claim C8, on the code as written: once the session record is gone, the
unguarded status writes of run_bengali_appointment_agent raise KeyError
instead of treating the record as not found; with the record present the
same write succeeds. -/
theorem missing_record_status_write_raises :
    dictDel [("CA123", sessionEnded)] "CA123" = [] ∧
    set_session_status (dictDel [("CA123", sessionEnded)] "CA123") "CA123"
      SessionStatus.running = DictWriteResult.keyError "CA123" ∧
    set_session_status (dictDel [("CA123", sessionEnded)] "CA123") "CA123"
      SessionStatus.ended = DictWriteResult.keyError "CA123" ∧
    set_session_status [("CA123", sessionEnded)] "CA123" SessionStatus.running =
      DictWriteResult.ok
        [("CA123", { sessionEnded with status := SessionStatus.running })] := by
  exact ⟨rfl, rfl, rfl, rfl⟩

/-- Helper: the success TwiML is a nonempty document opening with the XML
declaration and closing the Response element, whatever the URL, caller id
and call id are. -/
theorem stream_twiml_wellformed (w c s : String) :
    wellFormedXmlDoc (stream_twiml w c s) := by
  have hdataL : (stream_twiml w c s).data =
      (((((stream_twiml_head.data ++ w.data) ++ stream_twiml_mid1.data) ++ c.data) ++
        stream_twiml_mid2.data) ++ s.data) ++ stream_twiml_tail.data := by
    simp only [stream_twiml, String.data_append]
  have hdataR : (stream_twiml w c s).data =
      stream_twiml_head.data ++ (w.data ++ (stream_twiml_mid1.data ++ (c.data ++
        (stream_twiml_mid2.data ++ (s.data ++ stream_twiml_tail.data))))) := by
    simp only [stream_twiml, String.data_append, List.append_assoc]
  refine ⟨?_, ?_, ?_⟩
  · intro h
    have h0 : (stream_twiml w c s).data = [] := by rw [h]
    rw [hdataR] at h0
    exact absurd (List.append_eq_nil.mp h0).1 (by decide)
  · rw [hdataR]
    have hpre : xml_decl.data <+: stream_twiml_head.data := by decide
    exact List.IsPrefix.trans hpre (List.prefix_append _ _)
  · rw [hdataL]
    have hsuf : "</Response>".data <:+ stream_twiml_tail.data := by decide
    exact List.IsSuffix.trans hsuf (List.suffix_append _ _)

/-- Helper: the apology document is also a nonempty well-formed markup
document. -/
theorem apology_twiml_wellformed : wellFormedXmlDoc apology_twiml :=
  ⟨by decide, by decide, by decide⟩

/-- Claim C7: every inbound webhook POST, whatever its form fields and
whether any internal step raised, is answered with a nonempty well-formed
markup document, never an exception or an empty body: the success branch
answers the Connect-Stream document carrying the extracted caller id and
call id, the failure branch answers the degraded apology document. -/
theorem handle_twilio_call_total (form : List (String × String))
    (railway : Option String) :
    wellFormedXmlDoc (handle_twilio_call form railway WebhookInternal.ok) ∧
    wellFormedXmlDoc (handle_twilio_call form railway WebhookInternal.raised) ∧
    handle_twilio_call form railway WebhookInternal.ok =
      stream_twiml (websocket_url railway (extract_call_info form).call_sid)
        (extract_call_info form).caller_id (extract_call_info form).call_sid ∧
    handle_twilio_call form railway WebhookInternal.raised = apology_twiml :=
  ⟨stream_twiml_wellformed _ _ _, apology_twiml_wellformed, rfl, rfl⟩
